import Mathlib

/-!
Verification of `pyowm/webapi25/weatherutils.py`: search and filter
utilities over lists of *Weather* objects.  The Python functions are
embedded shallowly: `Weather` objects become a record of the three
attributes the module reads, the `WeatherCodeRegistry` collaborator
becomes a partial map from codes to labels, and the two exceptions
(`LookupError` from the registry, `NotFoundError` raised locally)
become an explicit error type threaded through `Except`.
-/

namespace WeatherUtils

/-- Modelled from the spec: a *Weather* record, an external collaborator
consumed through `get_weather_code`, `get_detailed_status` and
`get_reference_time`; only those three attributes are relevant here. -/
structure Weather where
  weatherCode : Int
  detailedStatus : String
  referenceTime : Int
deriving DecidableEq, Repr

/-- Accessor `Weather.get_weather_code`. -/
def Weather.get_weather_code (w : Weather) : Int := w.weatherCode

/-- Accessor `Weather.get_detailed_status`. -/
def Weather.get_detailed_status (w : Weather) : String := w.detailedStatus

/-- Accessor `Weather.get_reference_time`. -/
def Weather.get_reference_time (w : Weather) : Int := w.referenceTime

/-- Modelled from the spec: the *WeatherCodeRegistry* collaborator, a
read-only mapping from weather codes to canonical status labels whose
`status_for` lookup raises `LookupError` when a code has no mapping;
`none` stands for that missing mapping. -/
def WeatherCodeRegistry : Type := Int → Option String

/-- The two exceptions observable from this module: `LookupError`
propagated from the registry, and `pyowm.exceptions.not_found_error.NotFoundError`
raised by `find_closest_weather`. -/
inductive WUError where
  | lookupError : WUError
  | notFoundError : WUError
deriving DecidableEq, Repr

/-- Python's `str.lower()`: lower-case a string character by character
(stated as a structural map over the string's characters). -/
def pyLower (s : String) : String := String.mk (s.data.map Char.toLower)

/-- `status_is(weather, status, weather_code_registry)`: looks up the
label for the weather's code, lower-cases it and compares it to
`status`; a missing mapping surfaces as the registry's `LookupError`. -/
def status_is (weather : Weather) (status : String)
    (weather_code_registry : WeatherCodeRegistry) : Except WUError Bool :=
  match weather_code_registry weather.get_weather_code with
  | none => Except.error WUError.lookupError
  | some label => Except.ok (pyLower label == status)

/-- `any_status_is(weather_list, status, weather_code_registry)`: scans
the list in order and returns `True` at the first weather whose
`status_is` check is positive, `False` when the scan finishes. -/
def any_status_is (weather_list : List Weather) (status : String)
    (weather_code_registry : WeatherCodeRegistry) : Except WUError Bool :=
  match weather_list with
  | [] => Except.ok false
  | weather :: rest =>
    match status_is weather status weather_code_registry with
    | Except.error e => Except.error e
    | Except.ok true => Except.ok true
    | Except.ok false => any_status_is rest status weather_code_registry

/-- Python's substring test `needle in haystack` on the underlying
character lists: `needle` occurs contiguously somewhere in `haystack`. -/
def strIn : List Char → List Char → Bool
  | needle, [] => needle.isEmpty
  | needle, c :: rest => needle.isPrefixOf (c :: rest) || strIn needle rest

/-- `status_matches_any(word_list, weather)`: lower-cases the weather's
detailed status once, then returns `True` iff some keyword of
`word_list` (kept in its original case) is a substring of it. -/
def status_matches_any (word_list : List String) (weather : Weather) : Bool :=
  let detailed_status := pyLower weather.get_detailed_status
  word_list.any fun word => strIn word.data detailed_status.data

/-- `filter_by_matching_statuses(word_list, weathers_list)`: the
sublist of `weathers_list`, in order, of weathers whose detailed status
matches at least one keyword. -/
def filter_by_matching_statuses (word_list : List String)
    (weathers_list : List Weather) : List Weather :=
  match weathers_list with
  | [] => []
  | weather :: rest =>
    if status_matches_any word_list weather then
      weather :: filter_by_matching_statuses word_list rest
    else
      filter_by_matching_statuses word_list rest

/-- Python's `min` over a non-empty list `x :: xs`. -/
def pyMin (x : Int) (xs : List Int) : Int := xs.foldl min x

/-- Python's `max` over a non-empty list `x :: xs`. -/
def pyMax (x : Int) (xs : List Int) : Int := xs.foldl max x

/-- `is_in_coverage(unixtime, weathers_list)`: `False` on the empty
list, otherwise `True` iff `unixtime` lies between the minimum and the
maximum reference time of the list, bounds included. -/
def is_in_coverage (unixtime : Int) (weathers_list : List Weather) : Bool :=
  match weathers_list.map Weather.get_reference_time with
  | [] => false
  | t :: ts =>
    let min_of_coverage := pyMin t ts
    let max_of_coverage := pyMax t ts
    if unixtime < min_of_coverage || unixtime > max_of_coverage then
      false
    else
      true

/-- Absolute time distance `abs(weather.get_reference_time() - unixtime)`. -/
def wdist (unixtime : Int) (weather : Weather) : Nat :=
  (weather.get_reference_time - unixtime).natAbs

/-- The scanning loop of `find_closest_weather`: walks the remaining
list keeping the closest weather seen so far and its distance, replacing
it only on a strictly smaller distance. -/
def findClosestLoop (unixtime : Int) :
    List Weather → Weather → Nat → Weather
  | [], closest_weather, _ => closest_weather
  | weather :: rest, closest_weather, time_distance =>
    if wdist unixtime weather < time_distance then
      findClosestLoop unixtime rest weather (wdist unixtime weather)
    else
      findClosestLoop unixtime rest closest_weather time_distance

/-- `find_closest_weather(weathers_list, unixtime)`: `None` on the
empty list, `NotFoundError` when `unixtime` is out of coverage,
otherwise the weather of the list closest in time to `unixtime`. -/
def find_closest_weather (weathers_list : List Weather) (unixtime : Int) :
    Except WUError (Option Weather) :=
  match weathers_list with
  | [] => Except.ok none
  | first :: rest =>
    if !is_in_coverage unixtime (first :: rest) then
      Except.error WUError.notFoundError
    else
      Except.ok (some (findClosestLoop unixtime (first :: rest) first
        (wdist unixtime first)))

/-! ### Sample records and registries for concrete evaluations -/

/-- A sample record: light rain at time 100. -/
def w100 : Weather :=
  { weatherCode := 500, detailedStatus := "Light Rain", referenceTime := 100 }

/-- A sample record: clear sky at time 200. -/
def w200 : Weather :=
  { weatherCode := 800, detailedStatus := "Clear Sky", referenceTime := 200 }

/-- A sample record: few clouds at time 300. -/
def w300 : Weather :=
  { weatherCode := 801, detailedStatus := "Few Clouds", referenceTime := 300 }

/-- A sample registry mapping codes 500 and 800 only. -/
def regSample : WeatherCodeRegistry :=
  fun code => if code = 500 then some "Rain" else if code = 800 then some "Clear" else none

/-- The everywhere-undefined registry. -/
def regNone : WeatherCodeRegistry := fun _ => none

/-! ### Helper lemmas -/

theorem pyMin_le_iff (t x : Int) (xs : List Int) :
    pyMin x xs ≤ t ↔ ∃ z ∈ x :: xs, z ≤ t := by
  induction xs generalizing x with
  | nil => simp [pyMin]
  | cons a as ih =>
    rw [show pyMin x (a :: as) = pyMin (min x a) as from rfl, ih]
    simp only [List.mem_cons]
    constructor
    · rintro ⟨z, hz, hzt⟩
      rcases hz with rfl | hz
      · rcases min_le_iff.mp hzt with h | h
        · exact ⟨x, Or.inl rfl, h⟩
        · exact ⟨a, Or.inr (Or.inl rfl), h⟩
      · exact ⟨z, Or.inr (Or.inr hz), hzt⟩
    · rintro ⟨z, hz, hzt⟩
      rcases hz with rfl | rfl | hz
      · exact ⟨min z a, Or.inl rfl, min_le_iff.mpr (Or.inl hzt)⟩
      · exact ⟨min x z, Or.inl rfl, min_le_iff.mpr (Or.inr hzt)⟩
      · exact ⟨z, Or.inr hz, hzt⟩

theorem le_pyMax_iff (t x : Int) (xs : List Int) :
    t ≤ pyMax x xs ↔ ∃ z ∈ x :: xs, t ≤ z := by
  induction xs generalizing x with
  | nil => simp [pyMax]
  | cons a as ih =>
    rw [show pyMax x (a :: as) = pyMax (max x a) as from rfl, ih]
    simp only [List.mem_cons]
    constructor
    · rintro ⟨z, hz, hzt⟩
      rcases hz with rfl | hz
      · rcases le_max_iff.mp hzt with h | h
        · exact ⟨x, Or.inl rfl, h⟩
        · exact ⟨a, Or.inr (Or.inl rfl), h⟩
      · exact ⟨z, Or.inr (Or.inr hz), hzt⟩
    · rintro ⟨z, hz, hzt⟩
      rcases hz with rfl | rfl | hz
      · exact ⟨max z a, Or.inl rfl, le_max_iff.mpr (Or.inl hzt)⟩
      · exact ⟨max x z, Or.inl rfl, le_max_iff.mpr (Or.inr hzt)⟩
      · exact ⟨z, Or.inr hz, hzt⟩

theorem is_in_coverage_cons (t : Int) (first : Weather) (rest : List Weather) :
    is_in_coverage t (first :: rest) = true ↔
      pyMin first.get_reference_time (rest.map Weather.get_reference_time) ≤ t ∧
      t ≤ pyMax first.get_reference_time (rest.map Weather.get_reference_time) := by
  simp only [is_in_coverage, List.map_cons]
  split
  · next h =>
    simp only [Bool.or_eq_true, decide_eq_true_eq] at h
    simp only [Bool.false_eq_true, false_iff, not_and, not_le]
    omega
  · next h =>
    simp only [Bool.or_eq_true, decide_eq_true_eq, not_or] at h
    simp only [true_iff]
    omega

theorem is_in_coverage_true_iff (t : Int) (ws : List Weather) :
    is_in_coverage t ws = true ↔
      (∃ w ∈ ws, w.get_reference_time ≤ t) ∧ ∃ w ∈ ws, t ≤ w.get_reference_time := by
  cases ws with
  | nil => simp [is_in_coverage]
  | cons first rest =>
    rw [is_in_coverage_cons, pyMin_le_iff, le_pyMax_iff]
    rw [show (first.get_reference_time :: rest.map Weather.get_reference_time) =
      (first :: rest).map Weather.get_reference_time from rfl]
    simp only [List.mem_map]
    constructor
    · rintro ⟨⟨z, ⟨w, hw, rfl⟩, hzt⟩, ⟨z', ⟨w', hw', rfl⟩, hzt'⟩⟩
      exact ⟨⟨w, hw, hzt⟩, ⟨w', hw', hzt'⟩⟩
    · rintro ⟨⟨w, hw, hzt⟩, ⟨w', hw', hzt'⟩⟩
      exact ⟨⟨_, ⟨w, hw, rfl⟩, hzt⟩, ⟨_, ⟨w', hw', rfl⟩, hzt'⟩⟩

theorem filter_by_matching_statuses_eq_filter (word_list : List String)
    (weathers_list : List Weather) :
    filter_by_matching_statuses word_list weathers_list =
      weathers_list.filter fun w => status_matches_any word_list w := by
  induction weathers_list with
  | nil => rfl
  | cons w rest ih =>
    by_cases h : status_matches_any word_list w
    · simp [filter_by_matching_statuses, List.filter_cons, h, ih]
    · simp [filter_by_matching_statuses, List.filter_cons, h, ih]

theorem strIn_iff_infix (needle haystack : List Char) :
    strIn needle haystack = true ↔ needle <:+: haystack := by
  induction haystack with
  | nil => simp [strIn, List.isEmpty_iff, List.infix_nil]
  | cons c rest ih =>
    simp [strIn, List.infix_cons_iff, ih, List.isPrefixOf_iff_prefix]

theorem strIn_nil_left (haystack : List Char) : strIn [] haystack = true := by
  cases haystack <;> simp [strIn, List.isPrefixOf]

theorem status_matches_any_true_iff (word_list : List String) (weather : Weather) :
    status_matches_any word_list weather = true ↔
      ∃ word ∈ word_list, word.data <:+: (pyLower weather.get_detailed_status).data := by
  simp [status_matches_any, strIn_iff_infix]

theorem status_is_error_iff (weather : Weather) (status : String)
    (weather_code_registry : WeatherCodeRegistry) :
    status_is weather status weather_code_registry = Except.error WUError.lookupError ↔
      weather_code_registry weather.get_weather_code = none := by
  unfold status_is
  cases h : weather_code_registry weather.get_weather_code <;> simp

theorem status_is_error_eq (weather : Weather) (status : String)
    (weather_code_registry : WeatherCodeRegistry) (e : WUError)
    (h : status_is weather status weather_code_registry = Except.error e) :
    e = WUError.lookupError := by
  unfold status_is at h
  cases hr : weather_code_registry weather.get_weather_code <;> rw [hr] at h <;>
    simp at h
  exact h.symm

theorem any_status_is_error_iff (weather_list : List Weather) (status : String)
    (weather_code_registry : WeatherCodeRegistry) :
    any_status_is weather_list status weather_code_registry =
        Except.error WUError.lookupError ↔
      ∃ pre w rest, weather_list = pre ++ w :: rest ∧
        weather_code_registry w.get_weather_code = none ∧
        ∀ p ∈ pre, status_is p status weather_code_registry = Except.ok false := by
  induction weather_list with
  | nil => simp [any_status_is]
  | cons w ws ih =>
    cases hm : status_is w status weather_code_registry with
    | error e =>
      have he := status_is_error_eq w status weather_code_registry e hm
      subst he
      have hn := (status_is_error_iff w status weather_code_registry).mp hm
      simp only [any_status_is, hm, true_iff]
      exact ⟨[], w, ws, rfl, hn, by simp⟩
    | ok b =>
      cases b with
      | true =>
        simp only [any_status_is, hm]
        constructor
        · intro hcontra
          exact absurd hcontra (by simp)
        · rintro ⟨pre, w', rest, hsplit, hnone, hpre⟩
          exfalso
          cases pre with
          | nil =>
            simp only [List.nil_append, List.cons.injEq] at hsplit
            obtain ⟨rfl, rfl⟩ := hsplit
            have herr := (status_is_error_iff w status weather_code_registry).mpr hnone
            rw [hm] at herr
            exact absurd herr (by simp)
          | cons p pre' =>
            simp only [List.cons_append, List.cons.injEq] at hsplit
            obtain ⟨rfl, _⟩ := hsplit
            have := hpre w (by simp)
            rw [hm] at this
            exact absurd this (by simp)
      | false =>
        rw [show any_status_is (w :: ws) status weather_code_registry =
          any_status_is ws status weather_code_registry from by simp [any_status_is, hm]]
        rw [ih]
        constructor
        · rintro ⟨pre, w', rest, hsplit, hnone, hpre⟩
          refine ⟨w :: pre, w', rest, by rw [List.cons_append, hsplit], hnone, ?_⟩
          intro p hp
          rcases List.mem_cons.mp hp with rfl | hp
          · exact hm
          · exact hpre p hp
        · rintro ⟨pre, w', rest, hsplit, hnone, hpre⟩
          cases pre with
          | nil =>
            simp only [List.nil_append, List.cons.injEq] at hsplit
            obtain ⟨rfl, rfl⟩ := hsplit
            have herr := (status_is_error_iff w status weather_code_registry).mpr hnone
            rw [hm] at herr
            exact absurd herr (by simp)
          | cons p pre' =>
            simp only [List.cons_append, List.cons.injEq] at hsplit
            obtain ⟨rfl, hws⟩ := hsplit
            exact ⟨pre', w', rest, hws, hnone, fun q hq => hpre q (by simp [hq])⟩

theorem any_status_is_error_eq (weather_list : List Weather) (status : String)
    (weather_code_registry : WeatherCodeRegistry) (e : WUError)
    (h : any_status_is weather_list status weather_code_registry = Except.error e) :
    e = WUError.lookupError := by
  induction weather_list with
  | nil => simp [any_status_is] at h
  | cons w ws ih =>
    cases hm : status_is w status weather_code_registry with
    | error e' =>
      simp only [any_status_is, hm, Except.error.injEq] at h
      rw [← h]
      exact status_is_error_eq w status weather_code_registry e' hm
    | ok b =>
      cases b with
      | true =>
        simp only [any_status_is, hm] at h
        exact absurd h (by simp)
      | false =>
        simp only [any_status_is, hm] at h
        exact ih h

theorem any_status_is_ok_true_iff (weather_list : List Weather) (status : String)
    (weather_code_registry : WeatherCodeRegistry)
    (h : ∀ w ∈ weather_list, (weather_code_registry w.get_weather_code).isSome = true) :
    any_status_is weather_list status weather_code_registry = Except.ok true ↔
      ∃ w ∈ weather_list, status_is w status weather_code_registry = Except.ok true := by
  induction weather_list with
  | nil => simp [any_status_is]
  | cons w ws ih =>
    cases hm : status_is w status weather_code_registry with
    | error e =>
      exfalso
      have he := status_is_error_eq w status weather_code_registry e hm
      subst he
      have hn := (status_is_error_iff w status weather_code_registry).mp hm
      have := h w (by simp)
      rw [hn] at this
      simp at this
    | ok b =>
      cases b with
      | true =>
        simp only [any_status_is, hm, true_iff]
        exact ⟨w, by simp, hm⟩
      | false =>
        rw [show any_status_is (w :: ws) status weather_code_registry =
          any_status_is ws status weather_code_registry from by simp [any_status_is, hm]]
        rw [ih fun x hx => h x (by simp [hx])]
        constructor
        · rintro ⟨x, hx, hxt⟩
          exact ⟨x, by simp [hx], hxt⟩
        · rintro ⟨x, hx, hxt⟩
          rcases List.mem_cons.mp hx with rfl | hx
          · rw [hm] at hxt
            exact absurd hxt (by simp)
          · exact ⟨x, hx, hxt⟩

theorem findClosestLoop_invariant (t : Int) (l : List Weather) :
    ∀ best : Weather,
      (findClosestLoop t l best (wdist t best) = best ∧
        ∀ w ∈ l, wdist t best ≤ wdist t w) ∨
      (∃ pre r post, l = pre ++ r :: post ∧
        findClosestLoop t l best (wdist t best) = r ∧
        wdist t r < wdist t best ∧
        (∀ w ∈ pre, wdist t r < wdist t w) ∧
        (∀ w ∈ post, wdist t r ≤ wdist t w)) := by
  induction l with
  | nil =>
    intro best
    exact Or.inl ⟨rfl, by simp⟩
  | cons w rest ih =>
    intro best
    by_cases hlt : wdist t w < wdist t best
    · have hstep : findClosestLoop t (w :: rest) best (wdist t best) =
          findClosestLoop t rest w (wdist t w) := by
        simp [findClosestLoop, hlt]
      rcases ih w with ⟨heq, hall⟩ | ⟨pre, r, post, hsplit, heq, hr, hpre, hpost⟩
      · exact Or.inr ⟨[], w, rest, rfl, by rw [hstep, heq], hlt, by simp, hall⟩
      · refine Or.inr ⟨w :: pre, r, post, by rw [List.cons_append, hsplit],
          by rw [hstep, heq], lt_trans hr hlt, ?_, hpost⟩
        intro x hx
        rcases List.mem_cons.mp hx with rfl | hx
        · exact hr
        · exact hpre x hx
    · have hge : wdist t best ≤ wdist t w := not_lt.mp hlt
      have hstep : findClosestLoop t (w :: rest) best (wdist t best) =
          findClosestLoop t rest best (wdist t best) := by
        simp [findClosestLoop, hlt]
      rcases ih best with ⟨heq, hall⟩ | ⟨pre, r, post, hsplit, heq, hr, hpre, hpost⟩
      · refine Or.inl ⟨by rw [hstep, heq], ?_⟩
        intro x hx
        rcases List.mem_cons.mp hx with rfl | hx
        · exact hge
        · exact hall x hx
      · refine Or.inr ⟨w :: pre, r, post, by rw [List.cons_append, hsplit],
          by rw [hstep, heq], hr, ?_, hpost⟩
        intro x hx
        rcases List.mem_cons.mp hx with rfl | hx
        · exact lt_of_lt_of_le hr hge
        · exact hpre x hx

theorem find_closest_weather_covered (first : Weather) (rest : List Weather) (t : Int)
    (hcov : is_in_coverage t (first :: rest) = true) :
    find_closest_weather (first :: rest) t =
      Except.ok (some (findClosestLoop t rest first (wdist t first))) := by
  simp [find_closest_weather, hcov, findClosestLoop]

theorem find_closest_weather_error_eq (weathers_list : List Weather) (unixtime : Int)
    (e : WUError)
    (h : find_closest_weather weathers_list unixtime = Except.error e) :
    e = WUError.notFoundError := by
  cases weathers_list with
  | nil => exact absurd h (by simp [find_closest_weather])
  | cons first rest =>
    rw [show find_closest_weather (first :: rest) unixtime =
      (if (!is_in_coverage unixtime (first :: rest)) = true then
        Except.error WUError.notFoundError
      else
        Except.ok (some (findClosestLoop unixtime (first :: rest) first
          (wdist unixtime first)))) from rfl] at h
    split at h
    · simp only [Except.error.injEq] at h
      exact h.symm
    · exact absurd h (by simp)

/-! ### Claim theorems -/

/-- C1: for every non-empty record list and timestamp that `is_in_coverage`
deems covered, `find_closest_weather` returns the first record in list order
whose absolute distance to the timestamp is minimal: every record before it
is strictly farther, every record after it is no closer. -/
theorem find_closest_weather_first_min (ws : List Weather) (t : Int)
    (hne : ws ≠ []) (hcov : is_in_coverage t ws = true) :
    ∃ r pre post, find_closest_weather ws t = Except.ok (some r) ∧
      ws = pre ++ r :: post ∧
      (∀ w ∈ pre, wdist t r < wdist t w) ∧
      (∀ w ∈ post, wdist t r ≤ wdist t w) := by
  cases ws with
  | nil => exact absurd rfl hne
  | cons first rest =>
    have hres := find_closest_weather_covered first rest t hcov
    rcases findClosestLoop_invariant t rest first with
      ⟨heq, hall⟩ | ⟨pre, r, post, hsplit, heq, hr, hpre, hpost⟩
    · exact ⟨first, [], rest, by rw [hres, heq], rfl, by simp, hall⟩
    · refine ⟨r, first :: pre, post, by rw [hres, heq],
        by rw [List.cons_append, hsplit], ?_, hpost⟩
      intro x hx
      rcases List.mem_cons.mp hx with rfl | hx
      · exact hr
      · exact hpre x hx

/-- Witness for C1: times `[100, 200, 300]`, query `150`; the tie between
distances 50 (time 100) and 50 (time 200) goes to the first record, time 100. -/
theorem find_closest_weather_first_min_witness :
    find_closest_weather [w100, w200, w300] 150 = Except.ok (some w100) ∧
    ∃ r pre post, find_closest_weather [w100, w200, w300] 150 = Except.ok (some r) ∧
      [w100, w200, w300] = pre ++ r :: post ∧
      (∀ w ∈ pre, wdist 150 r < wdist 150 w) ∧
      (∀ w ∈ post, wdist 150 r ≤ wdist 150 w) :=
  ⟨rfl, find_closest_weather_first_min [w100, w200, w300] 150 (by decide) (by decide)⟩

/-- C2: `find_closest_weather` returns `None` (no error) on every empty list,
and raises `NotFoundError` exactly when the list is non-empty and the
timestamp lies outside the inclusive span from the minimum to the maximum
reference time of the list. -/
theorem find_closest_weather_error_spec (ws : List Weather) (t : Int) :
    find_closest_weather [] t = Except.ok none ∧
    (find_closest_weather ws t = Except.error WUError.notFoundError ↔
      ∃ first rest, ws = first :: rest ∧
        ¬(pyMin first.get_reference_time (rest.map Weather.get_reference_time) ≤ t ∧
          t ≤ pyMax first.get_reference_time (rest.map Weather.get_reference_time))) := by
  refine ⟨rfl, ?_⟩
  cases ws with
  | nil => simp [find_closest_weather]
  | cons first rest =>
    by_cases hc : is_in_coverage t (first :: rest) = true
    · have hm := (is_in_coverage_cons t first rest).mp hc
      rw [find_closest_weather_covered first rest t hc]
      refine iff_of_false (by simp) ?_
      rintro ⟨f, r, hsplit, hnot⟩
      injection hsplit with h1 h2
      subst h1; subst h2
      exact hnot hm
    · have hcf : is_in_coverage t (first :: rest) = false := by
        cases h : is_in_coverage t (first :: rest)
        · rfl
        · exact absurd h hc
      have hm : ¬(pyMin first.get_reference_time (rest.map Weather.get_reference_time) ≤ t ∧
          t ≤ pyMax first.get_reference_time (rest.map Weather.get_reference_time)) :=
        fun hcon => hc ((is_in_coverage_cons t first rest).mpr hcon)
      have hval : find_closest_weather (first :: rest) t =
          Except.error WUError.notFoundError := by
        simp [find_closest_weather, hcf]
      rw [hval]
      exact iff_of_true rfl ⟨first, rest, rfl, hm⟩

/-- Witness for C2: times `[100, 200, 300]`, query `50` is below the span,
so the call raises `NotFoundError`. -/
theorem find_closest_weather_error_spec_witness :
    find_closest_weather [w100, w200, w300] 50 = Except.error WUError.notFoundError :=
  (find_closest_weather_error_spec [w100, w200, w300] 50).2.mpr
    ⟨w100, [w200, w300], rfl, by decide⟩

/-- C3: `is_in_coverage` is false on the empty list; on any list it is true
iff some reference time is `≤ t` and some reference time is `≥ t`
(equivalently, for a non-empty list, iff `min ≤ t ≤ max`, bounds included),
with no sortedness assumption. -/
theorem is_in_coverage_spec (t : Int) (ws : List Weather) :
    is_in_coverage t [] = false ∧
    (is_in_coverage t ws = true ↔
      (∃ w ∈ ws, w.get_reference_time ≤ t) ∧ ∃ w ∈ ws, t ≤ w.get_reference_time) ∧
    ∀ first rest, ws = first :: rest →
      (is_in_coverage t ws = true ↔
        pyMin first.get_reference_time (rest.map Weather.get_reference_time) ≤ t ∧
        t ≤ pyMax first.get_reference_time (rest.map Weather.get_reference_time)) := by
  refine ⟨rfl, is_in_coverage_true_iff t ws, ?_⟩
  rintro first rest rfl
  exact is_in_coverage_cons t first rest

/-- Witness for C3: an unsorted list with times `[200, 100, 300]` and the
boundary query `100` (equal to the minimum) is covered. -/
theorem is_in_coverage_spec_witness :
    is_in_coverage 100 [w200, w100, w300] = true :=
  ((is_in_coverage_spec 100 [w200, w100, w300]).2.2 w200 [w100, w300] rfl).mpr (by decide)

/-- C4: when the registry maps the record's code to `label`, `status_is`
returns the equality test of `label` lower-cased against `status` taken in
its original case; in particular it is `True` iff `label.toLower = status`. -/
theorem status_is_spec (weather : Weather) (status : String)
    (weather_code_registry : WeatherCodeRegistry) (label : String)
    (h : weather_code_registry weather.get_weather_code = some label) :
    status_is weather status weather_code_registry =
      Except.ok (pyLower label == status) ∧
    (status_is weather status weather_code_registry = Except.ok true ↔
      pyLower label = status) := by
  constructor
  · simp [status_is, h]
  · simp [status_is, h]

/-- Witness for C4: code 500 has label `"Rain"`; status `"rain"` matches, the
differently-cased status `"Rain"` does not, as only the label is lower-cased. -/
theorem status_is_spec_witness :
    status_is w100 "rain" regSample = Except.ok true ∧
    status_is w100 "Rain" regSample = Except.ok false :=
  ⟨((status_is_spec w100 "rain" regSample "Rain" rfl).1).trans
      (congrArg Except.ok (by decide)),
   ((status_is_spec w100 "Rain" regSample "Rain" rfl).1).trans
      (congrArg Except.ok (by decide))⟩

/-- C5: `filter_by_matching_statuses` equals the order-preserving filter of
the input by `status_matches_any`: it is a sublist of the input, every kept
record matches, no non-matching record is kept, and it is empty when either
input is empty. -/
theorem filter_by_matching_statuses_spec (word_list : List String)
    (weathers_list : List Weather) :
    filter_by_matching_statuses word_list weathers_list =
      weathers_list.filter (fun w => status_matches_any word_list w) ∧
    (filter_by_matching_statuses word_list weathers_list).Sublist weathers_list ∧
    (∀ w ∈ filter_by_matching_statuses word_list weathers_list,
      status_matches_any word_list w = true) ∧
    (∀ w ∈ weathers_list, status_matches_any word_list w = false →
      w ∉ filter_by_matching_statuses word_list weathers_list) ∧
    filter_by_matching_statuses word_list [] = [] ∧
    filter_by_matching_statuses [] weathers_list = [] := by
  have he := filter_by_matching_statuses_eq_filter word_list weathers_list
  refine ⟨he, ?_, ?_, ?_, rfl, ?_⟩
  · rw [he]
    exact List.filter_sublist _
  · intro w hw
    rw [he] at hw
    exact (List.mem_filter.mp hw).2
  · intro w _ hfalse hmem
    rw [he] at hmem
    have hp := (List.mem_filter.mp hmem).2
    rw [hfalse] at hp
    exact absurd hp (by simp)
  · rw [filter_by_matching_statuses_eq_filter]
    exact List.filter_eq_nil_iff.mpr fun a _ => by simp [status_matches_any]

/-- Witness for C5: with keyword `"rain"`, the clear-sky record is excluded
from the filtered list. -/
theorem filter_by_matching_statuses_spec_witness :
    w200 ∉ filter_by_matching_statuses ["rain"] [w100, w200] :=
  (filter_by_matching_statuses_spec ["rain"] [w100, w200]).2.2.2.1 w200
    (by decide) (by decide)

/-- C6: with the registry defined on every occurring code, `any_status_is`
is false on the empty list, true iff some record's `status_is` check is
true, and short-circuits: a match at the head yields `True` regardless of
the rest of the list. -/
theorem any_status_is_spec (weather_list : List Weather) (status : String)
    (weather_code_registry : WeatherCodeRegistry)
    (h : ∀ w ∈ weather_list, (weather_code_registry w.get_weather_code).isSome = true) :
    any_status_is [] status weather_code_registry = Except.ok false ∧
    (any_status_is weather_list status weather_code_registry = Except.ok true ↔
      ∃ w ∈ weather_list, status_is w status weather_code_registry = Except.ok true) ∧
    ∀ w rest, status_is w status weather_code_registry = Except.ok true →
      any_status_is (w :: rest) status weather_code_registry = Except.ok true := by
  refine ⟨rfl,
    any_status_is_ok_true_iff weather_list status weather_code_registry h, ?_⟩
  intro w rest hw
  simp [any_status_is, hw]

/-- Witness for C6: scanning `[clear-sky, light-rain]` for `"rain"` finds no
match at the first record and a match at the second, so the result is `True`. -/
theorem any_status_is_spec_witness :
    any_status_is [w200, w100] "rain" regSample = Except.ok true :=
  ((any_status_is_spec [w200, w100] "rain" regSample (by decide)).2.1).mpr
    ⟨w100, by decide, rfl⟩

/-- C7: `status_matches_any` is true iff some keyword, in its original case,
is a contiguous substring of the record's detailed status lower-cased once;
it is false on the empty keyword list, and keyword `"rain"` matches detailed
status `"Light Rain"`. -/
theorem status_matches_any_spec (word_list : List String) (weather : Weather) :
    (status_matches_any word_list weather = true ↔
      ∃ word ∈ word_list, word.data <:+: (pyLower weather.get_detailed_status).data) ∧
    status_matches_any [] weather = false ∧
    status_matches_any ["rain"]
      { weatherCode := 500, detailedStatus := "Light Rain", referenceTime := 100 } = true :=
  ⟨status_matches_any_true_iff word_list weather, rfl, by decide⟩

/-- C8: `status_is` fails with the registry's `LookupError` exactly when the
record's code has no mapping; `any_status_is` fails with it exactly when some
record with an unmapped code is scanned before any match; both propagate the
error unchanged (it is the only error they produce); and
`find_closest_weather` never raises it. -/
theorem lookup_error_spec (weather : Weather) (weather_list : List Weather)
    (status : String) (weather_code_registry : WeatherCodeRegistry) (unixtime : Int) :
    (status_is weather status weather_code_registry = Except.error WUError.lookupError ↔
      weather_code_registry weather.get_weather_code = none) ∧
    (∀ e, status_is weather status weather_code_registry = Except.error e →
      e = WUError.lookupError) ∧
    (any_status_is weather_list status weather_code_registry =
        Except.error WUError.lookupError ↔
      ∃ pre w rest, weather_list = pre ++ w :: rest ∧
        weather_code_registry w.get_weather_code = none ∧
        ∀ p ∈ pre, status_is p status weather_code_registry = Except.ok false) ∧
    (∀ e, any_status_is weather_list status weather_code_registry = Except.error e →
      e = WUError.lookupError) ∧
    find_closest_weather weather_list unixtime ≠ Except.error WUError.lookupError := by
  refine ⟨status_is_error_iff weather status weather_code_registry,
    fun e he => status_is_error_eq weather status weather_code_registry e he,
    any_status_is_error_iff weather_list status weather_code_registry,
    fun e he => any_status_is_error_eq weather_list status weather_code_registry e he,
    fun hcon => ?_⟩
  exact WUError.noConfusion
    (find_closest_weather_error_eq weather_list unixtime WUError.lookupError hcon)

/-- Witness for C8: code 801 is unmapped in the sample registry, so
`status_is` fails with `LookupError`, and `any_status_is` fails after
scanning the (non-matching, mapped) clear-sky record first. -/
theorem lookup_error_spec_witness :
    status_is w300 "rain" regSample = Except.error WUError.lookupError ∧
    any_status_is [w200, w300] "rain" regSample = Except.error WUError.lookupError :=
  ⟨(lookup_error_spec w300 [] "rain" regSample 0).1.mpr rfl,
   (lookup_error_spec w300 [w200, w300] "rain" regSample 0).2.2.1.mpr
     ⟨[w200], w300, [], rfl, rfl, by
        intro p hp
        rw [List.mem_singleton.mp hp]
        rfl⟩⟩

/-- C9: a keyword list containing the empty string makes `status_matches_any`
true for every record, and makes `filter_by_matching_statuses` return the
whole input list unchanged. -/
theorem empty_keyword_matches_all (word_list : List String)
    (weathers_list : List Weather) (h : "" ∈ word_list) :
    (∀ weather : Weather, status_matches_any word_list weather = true) ∧
    filter_by_matching_statuses word_list weathers_list = weathers_list := by
  have hall : ∀ weather : Weather, status_matches_any word_list weather = true := by
    intro weather
    simp only [status_matches_any, List.any_eq_true]
    exact ⟨"", h, strIn_nil_left _⟩
  refine ⟨hall, ?_⟩
  rw [filter_by_matching_statuses_eq_filter]
  exact List.filter_eq_self.mpr fun a _ => hall a

/-- Witness for C9: keywords `["", "rain"]` keep both sample records. -/
theorem empty_keyword_matches_all_witness :
    filter_by_matching_statuses ["", "rain"] [w100, w200] = [w100, w200] :=
  (empty_keyword_matches_all ["", "rain"] [w100, w200] (by decide)).2

/-- C10: `filter_by_matching_statuses` is idempotent: filtering an already
filtered list with the same keywords changes nothing. -/
theorem filter_by_matching_statuses_idem (word_list : List String)
    (weathers_list : List Weather) :
    filter_by_matching_statuses word_list
        (filter_by_matching_statuses word_list weathers_list) =
      filter_by_matching_statuses word_list weathers_list := by
  rw [filter_by_matching_statuses_eq_filter word_list
    (filter_by_matching_statuses word_list weathers_list)]
  refine List.filter_eq_self.mpr fun a ha => ?_
  rw [filter_by_matching_statuses_eq_filter word_list weathers_list] at ha
  exact (List.mem_filter.mp ha).2

end WeatherUtils
